import Mathlib

/-!
Verification of the outlet query resolution engine of the subway-finder
repository (back-end/main.py).  Python strings are modelled as `List Char`,
Python `dict.get` as an explicit option-of-option field access (distinguishing
a missing key from a key bound to `None`), and code that can raise as
`Except Unit`.  Floating-point numbers are modelled as real numbers.
-/

namespace Subway

/-- Python strings, as character lists. -/
abbrev Str := List Char

/-- `leadMatch pat s` holds when `pat` is an initial segment of `s`
(the inner step of Python substring search). -/
def leadMatch : Str → Str → Bool
  | [], _ => true
  | _ :: _, [] => false
  | p :: ps, c :: cs => p == c && leadMatch ps cs

/-- Python `pat in hay` (substring containment). -/
def containsSub (pat : Str) : Str → Bool
  | [] => leadMatch pat []
  | c :: t => leadMatch pat (c :: t) || containsSub pat t

/-- Python `str.lower()` (ASCII). -/
def lowerL (s : Str) : Str := s.map Char.toLower

/-- Python `str.replace(' ', '')`. -/
def stripSp (s : Str) : Str := s.filter (fun c => c != ' ')

/-- Python `str.title()`: a letter is uppercased when the previous character
is not a letter, lowercased otherwise.  The boolean argument records whether
the previous character was a letter. -/
def titleAux : Bool → Str → Str
  | _, [] => []
  | prevAlpha, c :: rest =>
    (if c.isAlpha then (if prevAlpha then c.toLower else c.toUpper) else c)
      :: titleAux c.isAlpha rest

/-- Python `str.title()`. -/
def titleL (s : Str) : Str := titleAux false s

/-- An outlet record as it comes back from the data store: a Python dict.
`none` models a missing key, `some none` a key bound to `None`. -/
structure PyOutlet where
  name : Option (Option Str) := none
  address : Option (Option Str) := none
  operating_hours : Option (Option Str) := none
  latitude : Option ℝ := none
  longitude : Option ℝ := none

/-- Python `outlet.get(key, dflt)`: the default replaces a missing key only,
not a key bound to `None`. -/
def dictGet (f : Option (Option Str)) (dflt : Str) : Option Str :=
  match f with
  | none => some dflt
  | some v => v

/-- Rendering of an optional string inside a Python f-string
(`None` prints as `"None"`). -/
def fstr (v : Option Str) : Str :=
  match v with
  | some s => s
  | none => "None".data

/-! ### Counting resolver (`handle_counting_directly`) -/

/-- The location vocabulary of `handle_counting_directly` in main.py. -/
def locations_counting : List Str :=
  ["bangsar".data, "klcc".data, "mont kiara".data, "pj".data, "subang".data,
   "damansara".data, "ampang".data, "cheras".data, "shah alam".data,
   "petaling jaya".data]

/-- The `for loc in locations: ... break` scan of `handle_counting_directly`:
first vocabulary keyword occurring, space-insensitively, in the lowered query. -/
def firstCountLoc (query_lower : Str) : Option Str :=
  locations_counting.find? (fun loc => containsSub (stripSp loc) (stripSp query_lower))

/-- The counting loop of `handle_counting_directly`.  A record whose
`address` key is bound to `None` makes `None.lower()` raise, modelled as
`Except.error`. -/
def countLoop (target : Str) : List PyOutlet → Except Unit Nat
  | [] => .ok 0
  | o :: rest =>
    match dictGet o.address [] with
    | none => .error ()
    | some a =>
      if containsSub (stripSp target) (stripSp (lowerL a)) then
        (countLoop target rest).map (· + 1)
      else
        countLoop target rest

/-- The per-outlet membership test of the counting loop:
`target.replace(' ', '') in outlet.get('address', '').lower().replace(' ', '')`
(false when the address key is bound to `None`, the case where the loop
itself would raise). -/
def addrMatches (target : Str) (o : PyOutlet) : Bool :=
  match dictGet o.address [] with
  | none => false
  | some a => containsSub (stripSp target) (stripSp (lowerL a))

/-- `handle_counting_directly` of main.py. -/
def handle_counting_directly (query_lower : Str) (outlets : List PyOutlet) :
    Except Unit (Option Str) :=
  match firstCountLoc query_lower with
  | some target =>
      (countLoop target outlets).map (fun count =>
        some ((Nat.repr count).data ++ " outlets in ".data ++ titleL target))
  | none => .ok none

/-! ### Time normalizer (`extract_and_normalize_closing_time`) -/

/-- Digit value of an ASCII digit character. -/
def dv (c : Char) : Nat := c.toNat - 48

/-- The characters matched by the regex class `\s`. -/
def wsChar (c : Char) : Bool :=
  c == ' ' || c == '\t' || c == '\n' || c == '\r' || c == '\x0b' || c == '\x0c'

/-- Match `\s*([AP]M)` at the head of the string, returning the letter and
the remainder. -/
def amPmTail (cs : Str) : Option (Char × Str) :=
  match cs.dropWhile wsChar with
  | a :: m :: rest => if (a == 'A' || a == 'P') && m == 'M' then some (a, rest) else none
  | _ => none

/-- Match `:(\d{2})` at the head of the string, returning the minute value
and the remainder. -/
def colonMM : Str → Option (Nat × Str)
  | c :: m1 :: m2 :: rest =>
    if c == ':' && (m1.isDigit && m2.isDigit) then some (10 * dv m1 + dv m2, rest)
    else none
  | _ => none

/-- Continuation of pattern 1 after the hour digits: `:(\d{2})\s*([AP]M)`. -/
def p1Tail (h : Nat) (rest : Str) : Option ((Nat × Nat × Char) × Str) :=
  match colonMM rest with
  | some (m, r1) => (amPmTail r1).map (fun g => ((h, m, g.1), g.2))
  | none => none

/-- Match the regex `(\d{1,2}):(\d{2})\s*([AP]M)` at the head of the string
(greedy one-or-two-digit hour, with backtracking). -/
def p1At : Str → Option ((Nat × Nat × Char) × Str)
  | [] => none
  | [c1] => if c1.isDigit then p1Tail (dv c1) [] else none
  | c1 :: c2 :: rest2 =>
    if c1.isDigit then
      if c2.isDigit then
        (p1Tail (10 * dv c1 + dv c2) rest2).orElse (fun _ => p1Tail (dv c1) (c2 :: rest2))
      else p1Tail (dv c1) (c2 :: rest2)
    else none

/-- Continuation of pattern 2 after the hour digits: `\s*([AP]M)`. -/
def p2Tail (h : Nat) (rest : Str) : Option ((Nat × Char) × Str) :=
  (amPmTail rest).map (fun g => ((h, g.1), g.2))

/-- Match the regex `(\d{1,2})\s*([AP]M)` at the head of the string. -/
def p2At : Str → Option ((Nat × Char) × Str)
  | [] => none
  | [c1] => if c1.isDigit then p2Tail (dv c1) [] else none
  | c1 :: c2 :: rest2 =>
    if c1.isDigit then
      if c2.isDigit then
        (p2Tail (10 * dv c1 + dv c2) rest2).orElse (fun _ => p2Tail (dv c1) (c2 :: rest2))
      else p2Tail (dv c1) (c2 :: rest2)
    else none

/-- Continuation of pattern 3 after the hour digits: `:(\d{2})`. -/
def p3Tail (h : Nat) (rest : Str) : Option ((Nat × Nat) × Str) :=
  (colonMM rest).map (fun g => ((h, g.1), g.2))

/-- Match the regex `(\d{1,2}):(\d{2})` at the head of the string. -/
def p3At : Str → Option ((Nat × Nat) × Str)
  | [] => none
  | [c1] => if c1.isDigit then p3Tail (dv c1) [] else none
  | c1 :: c2 :: rest2 =>
    if c1.isDigit then
      if c2.isDigit then
        (p3Tail (10 * dv c1 + dv c2) rest2).orElse (fun _ => p3Tail (dv c1) (c2 :: rest2))
      else p3Tail (dv c1) (c2 :: rest2)
    else none

/-- `re.findall`: scan left to right, emitting non-overlapping matches and
restarting after each match.  Every pattern used here consumes at least one
character per match, so fuel equal to the string length never runs out. -/
def findall (matchAt : Str → Option (γ × Str)) : Nat → Str → List γ
  | 0, _ => []
  | _ + 1, [] => []
  | fuel + 1, c :: rest =>
    match matchAt (c :: rest) with
    | some (g, after) => g :: findall matchAt fuel after
    | none => findall matchAt fuel rest

/-- The 12-hour adjustment of main.py: `if ampm == 'PM' and hour != 12:
hour += 12 elif ampm == 'AM' and hour == 12: hour = 0`. -/
def adjustHour (h : Nat) (ap : Char) : Nat :=
  if ap = 'P' ∧ h ≠ 12 then h + 12
  else if ap = 'A' ∧ h = 12 then 0
  else h

/-- All minute values collected by `extract_and_normalize_closing_time`:
the three patterns are run in order over the uppercased string and each
match is converted to minutes since midnight. -/
def times_found (s : Str) : List Nat :=
  let up := s.map Char.toUpper
  ((findall p1At up.length up).map (fun g => adjustHour g.1 g.2.2 * 60 + g.2.1) ++
    (findall p2At up.length up).map (fun g => adjustHour g.1 g.2 * 60)) ++
    (findall p3At up.length up).map (fun g => g.1 * 60 + g.2)

/-- Python `max` over a list of naturals (`none` on the empty list). -/
def listMax : List Nat → Option Nat
  | [] => none
  | x :: xs =>
    match listMax xs with
    | none => some x
    | some m => some (Nat.max x m)

/-- `extract_and_normalize_closing_time` of main.py.  The argument is the
value of `outlet.get('operating_hours', '')`, which may be `None`; both
`None` and the empty string fail the `if not hours_str` guard. -/
def extract_and_normalize_closing_time (hours_str : Option Str) : Option Nat :=
  match hours_str with
  | none => none
  | some s => if s.isEmpty then none else listMax (times_found s)

/-! ### Latest-closing resolver (`handle_latest_closing_directly`) -/

/-- The `outlet_times` list built by `handle_latest_closing_directly`:
triples (name, normalized closing time, raw hours value), keeping only
outlets whose extracted time is truthy (present and nonzero).  The name is
kept as the raw `outlet.get('name', 'Unknown')` value: `some "Unknown"`
when the key is missing, `none` when it is bound to Python `None`. -/
def outlet_times (outlets : List PyOutlet) : List (Option Str × Nat × Option Str) :=
  outlets.filterMap (fun o =>
    let name := dictGet o.name "Unknown".data
    let hours := dictGet o.operating_hours []
    match extract_and_normalize_closing_time hours with
    | some t => if t ≠ 0 then some (name, t, hours) else none
    | none => none)

/-- Python `sep.join(xs)` over a list of optional strings: `str.join`
raises `TypeError` as soon as an element is not a string (here: is bound
to `None`), modelled as `none`. -/
def pyJoin (sep : Str) (xs : List (Option Str)) : Option Str :=
  (xs.mapM (fun x => x)).map (fun l => List.intercalate sep l)

/-- `handle_latest_closing_directly` of main.py.  Python's stable in-place
sort with `reverse=True` is modelled by an insertion sort with a descending
key relation (the output of a stable sort is unique, so this is exact).
The single-winner branch is an f-string, which renders a null name as the
string `"None"`; the tie branch's `', '.join` instead raises on a null
name, modelled as `Except.error`. -/
def handle_latest_closing_directly (outlets : List PyOutlet) : Except Unit Str :=
  let ots := outlet_times outlets
  if ots.isEmpty then .ok "Closing times not available".data
  else
    let sorted := List.insertionSort (fun a b => b.2.1 ≤ a.2.1) ots
    let latest_time := sorted.headI.2.1
    let latest_outlets := (sorted.filter (fun x => x.2.1 == latest_time)).map (fun x => x.1)
    if latest_outlets.length = 1 then
      .ok (fstr latest_outlets.headI ++ " - Closes latest".data)
    else
      match pyJoin ", ".data latest_outlets with
      | some s => .ok ("These outlets close latest: ".data ++ s)
      | none => .error ()

/-! ### Orchestrator (`handle_direct_processing`, `chat_completion`) and
generation fallback (`handle_llm_processing`) -/

/-- Python `str.strip()`. -/
def pyStrip (s : Str) : Str :=
  ((s.dropWhile wsChar).reverse.dropWhile wsChar).reverse

/-- The answer computation of `handle_llm_processing` in main.py, as a
function of the content returned by the completion service:
`content.strip() if content is not None else "No answer generated."`. -/
def handle_llm_processing (content : Option Str) : Str :=
  match content with
  | some c => pyStrip c
  | none => "No answer generated.".data

/-- `handle_direct_processing` of main.py. -/
def handle_direct_processing (query : Str) (outlets : List PyOutlet) :
    Except Unit (Option Str) :=
  let query_lower := lowerL query
  if containsSub "how many".data query_lower || containsSub "count".data query_lower then
    handle_counting_directly query_lower outlets
  else if containsSub "closes latest".data query_lower
      || containsSub "latest closing".data query_lower then
    (handle_latest_closing_directly outlets).map (fun s => some s)
  else
    .ok none

/-- The `chat_completion` orchestration of main.py, parametrized by the
content the external completion service would return on the fallback path.
`if direct_answer:` is Python truthiness: both `None` and the empty string
fall through to the generation fallback. -/
def chat_completion (query : Str) (outlets : List PyOutlet) (llmContent : Option Str) :
    Except Unit Str :=
  match handle_direct_processing query outlets with
  | .error e => .error e
  | .ok (some a) => if a.isEmpty then .ok (handle_llm_processing llmContent) else .ok a
  | .ok none => .ok (handle_llm_processing llmContent)

/-! ### Context compressor (`extract_location_keywords`) -/

/-- The location vocabulary of `extract_location_keywords` in main.py. -/
def locations_extract : List Str :=
  ["Bangsar".data, "KLCC".data, "Mont Kiara".data, "PJ".data, "Subang".data,
   "Damansara".data, "Ampang".data, "Cheras".data, "KL".data, "Selangor".data,
   "Shah Alam".data]

/-- `extract_location_keywords` of main.py. -/
def extract_location_keywords (address : Option Str) : Str :=
  match address with
  | none => "Unknown".data
  | some a =>
    if a.isEmpty then "Unknown".data
    else
      match locations_extract.filter (fun loc => containsSub (lowerL loc) (lowerL a)) with
      | [] => a.take 20
      | l :: _ => l

/-! ### Geospatial filter (`haversine`, `get_nearby_outlets`)

Floats are modelled as real numbers; `math.atan2` is spelled out with its
usual quadrant definition. -/

/-- `math.atan2 y x`. -/
noncomputable def atan2 (y x : ℝ) : ℝ :=
  if 0 < x then Real.arctan (y / x)
  else if x < 0 then
    (if 0 ≤ y then Real.arctan (y / x) + Real.pi else Real.arctan (y / x) - Real.pi)
  else
    (if 0 < y then Real.pi / 2 else if y < 0 then -(Real.pi / 2) else 0)

/-- The `haversine` function of main.py (Earth radius 6371 km,
`math.radians x = x * π / 180`). -/
noncomputable def haversine (lat1 lon1 lat2 lon2 : ℝ) : ℝ :=
  let R : ℝ := 6371
  let phi1 := lat1 * Real.pi / 180
  let phi2 := lat2 * Real.pi / 180
  let dphi := (lat2 - lat1) * Real.pi / 180
  let dlambda := (lon2 - lon1) * Real.pi / 180
  let a := Real.sin (dphi / 2) ^ 2 +
    Real.cos phi1 * Real.cos phi2 * Real.sin (dlambda / 2) ^ 2
  let c := 2 * atan2 (Real.sqrt a) (Real.sqrt (1 - a))
  R * c

/-- Python `round(x, 3)` (the floating-point tie-to-even detail is abstracted
to rounding on reals). -/
noncomputable def round3 (x : ℝ) : ℝ := (round (x * 1000) : ℤ) / 1000

/-- The `results` list built by `get_nearby_outlets` before sorting: outlets
with both coordinates present and within `distance_km`, each paired with its
reported (3-decimal-rounded) distance, in snapshot order. -/
noncomputable def nearby_results (latitude longitude distance_km : ℝ)
    (outlets : List PyOutlet) : List (PyOutlet × ℝ) :=
  outlets.filterMap (fun outlet =>
    match outlet.latitude, outlet.longitude with
    | some lat, some lng =>
      let dist := haversine latitude longitude lat lng
      if dist ≤ distance_km then some (outlet, round3 dist) else none
    | _, _ => none)

/-- `get_nearby_outlets` of main.py: `results.sort(key=lambda x:
x["distance_km"])` is a stable sort on the reported distance, modelled by
insertion sort (the output of a stable sort is unique, so this is exact).
The radius defaults to 5 km as in the route declaration. -/
noncomputable def get_nearby_outlets (latitude longitude : ℝ) (outlets : List PyOutlet)
    (distance_km : ℝ := 5) : List (PyOutlet × ℝ) :=
  List.insertionSort (fun a b => a.2 ≤ b.2)
    (nearby_results latitude longitude distance_km outlets)

/-! ### Auxiliary lemmas about the time parser -/

lemma dv_le_nine {c : Char} (h : c.isDigit = true) : dv c ≤ 9 := by
  simp [Char.isDigit] at h
  have h2 : c.val.toNat ≤ 57 := UInt32.le_def.mp h.2
  unfold dv Char.toNat
  omega

lemma orElse_eq_some {α : Type} {a : Option α} {f : Unit → Option α} {x : α}
    (h : a.orElse f = some x) : a = some x ∨ (a = none ∧ f () = some x) := by
  cases a with
  | some y => left; simpa [Option.orElse] using h
  | none => right; exact ⟨rfl, by simpa [Option.orElse] using h⟩

lemma colonMM_bound {cs r : Str} {m : Nat} (h : colonMM cs = some (m, r)) : m ≤ 99 := by
  match cs with
  | [] => simp [colonMM] at h
  | [c] => simp [colonMM] at h
  | [c, m1] => simp [colonMM] at h
  | c :: m1 :: m2 :: rest =>
    rw [colonMM] at h
    split at h
    · rename_i hc
      simp only [Bool.and_eq_true, beq_iff_eq] at hc
      have h1 := dv_le_nine hc.2.1
      have h2 := dv_le_nine hc.2.2
      injection h with h'
      injection h' with hm hr
      omega
    · exact absurd h (by simp)

lemma p1Tail_shape {hh : Nat} {rest : Str} {g : (Nat × Nat × Char) × Str}
    (hp : p1Tail hh rest = some g) : g.1.1 = hh ∧ g.1.2.1 ≤ 99 := by
  unfold p1Tail at hp
  cases hc : colonMM rest with
  | none => rw [hc] at hp; simp at hp
  | some mr =>
    rw [hc] at hp
    rcases Option.map_eq_some'.mp hp with ⟨g0, hg0, heq⟩
    have hb := colonMM_bound (show colonMM rest = some (mr.1, mr.2) from by rw [hc])
    subst heq
    exact ⟨rfl, hb⟩

lemma p2Tail_shape {hh : Nat} {rest : Str} {g : (Nat × Char) × Str}
    (hp : p2Tail hh rest = some g) : g.1.1 = hh := by
  unfold p2Tail at hp
  rcases Option.map_eq_some'.mp hp with ⟨g0, hg0, heq⟩
  subst heq
  rfl

lemma p3Tail_shape {hh : Nat} {rest : Str} {g : (Nat × Nat) × Str}
    (hp : p3Tail hh rest = some g) : g.1.1 = hh ∧ g.1.2 ≤ 99 := by
  unfold p3Tail at hp
  rcases Option.map_eq_some'.mp hp with ⟨g0, hg0, heq⟩
  have hb := colonMM_bound (show colonMM rest = some (g0.1, g0.2) from hg0)
  subst heq
  exact ⟨rfl, hb⟩

lemma p1At_bound {cs : Str} {g : (Nat × Nat × Char) × Str}
    (hp : p1At cs = some g) : g.1.1 ≤ 99 ∧ g.1.2.1 ≤ 99 := by
  match cs with
  | [] => simp [p1At] at hp
  | [c1] =>
    rw [p1At] at hp
    split at hp
    · rename_i hd1
      obtain ⟨he, hm⟩ := p1Tail_shape hp
      have b1 := dv_le_nine hd1
      omega
    · simp at hp
  | c1 :: c2 :: rest2 =>
    rw [p1At] at hp
    split at hp
    · rename_i hd1
      have b1 := dv_le_nine hd1
      split at hp
      · rename_i hd2
        have b2 := dv_le_nine hd2
        rcases orElse_eq_some hp with h2 | ⟨-, h2⟩ <;>
          · obtain ⟨he, hm⟩ := p1Tail_shape h2
            omega
      · obtain ⟨he, hm⟩ := p1Tail_shape hp
        omega
    · simp at hp

lemma p2At_bound {cs : Str} {g : (Nat × Char) × Str}
    (hp : p2At cs = some g) : g.1.1 ≤ 99 := by
  match cs with
  | [] => simp [p2At] at hp
  | [c1] =>
    rw [p2At] at hp
    split at hp
    · rename_i hd1
      have he := p2Tail_shape hp
      have b1 := dv_le_nine hd1
      omega
    · simp at hp
  | c1 :: c2 :: rest2 =>
    rw [p2At] at hp
    split at hp
    · rename_i hd1
      have b1 := dv_le_nine hd1
      split at hp
      · rename_i hd2
        have b2 := dv_le_nine hd2
        rcases orElse_eq_some hp with h2 | ⟨-, h2⟩ <;>
          · have he := p2Tail_shape h2
            omega
      · have he := p2Tail_shape hp
        omega
    · simp at hp

lemma p3At_bound {cs : Str} {g : (Nat × Nat) × Str}
    (hp : p3At cs = some g) : g.1.1 ≤ 99 ∧ g.1.2 ≤ 99 := by
  match cs with
  | [] => simp [p3At] at hp
  | [c1] =>
    rw [p3At] at hp
    split at hp
    · rename_i hd1
      obtain ⟨he, hm⟩ := p3Tail_shape hp
      have b1 := dv_le_nine hd1
      omega
    · simp at hp
  | c1 :: c2 :: rest2 =>
    rw [p3At] at hp
    split at hp
    · rename_i hd1
      have b1 := dv_le_nine hd1
      split at hp
      · rename_i hd2
        have b2 := dv_le_nine hd2
        rcases orElse_eq_some hp with h2 | ⟨-, h2⟩ <;>
          · obtain ⟨he, hm⟩ := p3Tail_shape h2
            omega
      · obtain ⟨he, hm⟩ := p3Tail_shape hp
        omega
    · simp at hp

lemma adjustHour_le (h : Nat) (ap : Char) : adjustHour h ap ≤ h + 12 := by
  unfold adjustHour
  split
  · omega
  · split <;> omega

lemma mem_findall {γ : Type} {matchAt : Str → Option (γ × Str)} {fuel : Nat} {s : Str} {g : γ}
    (h : g ∈ findall matchAt fuel s) : ∃ cs r, matchAt cs = some (g, r) := by
  induction fuel generalizing s with
  | zero => simp [findall] at h
  | succ n ih =>
    cases s with
    | nil => simp [findall] at h
    | cons c rest =>
      rw [findall] at h
      cases hm : matchAt (c :: rest) with
      | some gr =>
        rw [hm] at h
        rcases List.mem_cons.mp h with rfl | h
        · exact ⟨c :: rest, gr.2, by rw [hm]⟩
        · exact ih h
      | none =>
        rw [hm] at h
        exact ih h

lemma times_found_bound {s : Str} : ∀ t ∈ times_found s, t ≤ 6759 := by
  intro t ht
  unfold times_found at ht
  rcases List.mem_append.mp ht with h12 | h3
  · rcases List.mem_append.mp h12 with h1 | h2
    · rcases List.mem_map.mp h1 with ⟨g, hg, rfl⟩
      obtain ⟨cs, r, hm⟩ := mem_findall hg
      have bh : g.1 ≤ 99 := (p1At_bound hm).1
      have bm : g.2.1 ≤ 99 := (p1At_bound hm).2
      have ha := adjustHour_le g.1 g.2.2
      omega
    · rcases List.mem_map.mp h2 with ⟨g, hg, rfl⟩
      obtain ⟨cs, r, hm⟩ := mem_findall hg
      have bh : g.1 ≤ 99 := p2At_bound hm
      have ha := adjustHour_le g.1 g.2
      omega
  · rcases List.mem_map.mp h3 with ⟨g, hg, rfl⟩
    obtain ⟨cs, r, hm⟩ := mem_findall hg
    have bh : g.1 ≤ 99 := (p3At_bound hm).1
    have bm : g.2 ≤ 99 := (p3At_bound hm).2
    omega

lemma listMax_eq_none_iff {l : List Nat} : listMax l = none ↔ l = [] := by
  cases l with
  | nil => simp [listMax]
  | cons x xs =>
    simp only [listMax]
    cases h : listMax xs <;> simp

lemma listMax_spec {l : List Nat} {v : Nat} (h : listMax l = some v) :
    v ∈ l ∧ ∀ t ∈ l, t ≤ v := by
  induction l generalizing v with
  | nil => simp [listMax] at h
  | cons x xs ih =>
    simp only [listMax] at h
    cases hx : listMax xs with
    | none =>
      rw [hx] at h
      have hnil : xs = [] := listMax_eq_none_iff.mp hx
      simp_all
    | some m =>
      rw [hx] at h
      obtain ⟨hm, hb⟩ := ih hx
      have hv : v = Nat.max x m := by injection h with h'; exact h'.symm
      subst hv
      refine ⟨?_, ?_⟩
      · rcases Nat.le_total x m with hle | hle
        · have hmx : Nat.max x m = m := Nat.max_eq_right hle
          rw [hmx]; exact List.mem_cons_of_mem _ hm
        · have hmx : Nat.max x m = x := Nat.max_eq_left hle
          rw [hmx]; exact List.mem_cons_self _ _
      · intro t ht
        rcases List.mem_cons.mp ht with rfl | ht
        · exact Nat.le_max_left _ _
        · exact le_trans (hb t ht) (Nat.le_max_right _ _)

/-! ### Claim C3: the time normalizer -/

/-- Claim C3: the time normalizer collects every match of the patterns
`H:MM AM/PM`, `H AM/PM` and `H:MM` over the (uppercased) hours string,
converts each to minutes since midnight, and returns the maximum value
found; it returns absent exactly when no pattern matches anywhere.  In
particular `"Mon-Sun: 8AM - 10PM"` yields 1320, `"24 Hours"` yields absent
and `"08:00 - 22:30"` yields 1350. -/
theorem claim_C3 :
    (extract_and_normalize_closing_time (some "Mon-Sun: 8AM - 10PM".data) = some 1320 ∧
      extract_and_normalize_closing_time (some "24 Hours".data) = none ∧
      extract_and_normalize_closing_time (some "08:00 - 22:30".data) = some 1350) ∧
    (∀ s : Str, extract_and_normalize_closing_time (some s) = none ↔ times_found s = []) ∧
    (∀ (s : Str) (v : Nat), extract_and_normalize_closing_time (some s) = some v →
      v ∈ times_found s ∧ ∀ t ∈ times_found s, t ≤ v) := by
  refine ⟨⟨by decide, by decide, by decide⟩, ?_, ?_⟩
  · intro s
    cases s with
    | nil => simp [extract_and_normalize_closing_time, times_found, findall]
    | cons c t =>
      rw [extract_and_normalize_closing_time]
      simp only [List.isEmpty_cons, if_neg Bool.false_ne_true]
      exact listMax_eq_none_iff
  · intro s v h
    rw [extract_and_normalize_closing_time] at h
    split at h
    · exact absurd h (by simp)
    · exact listMax_spec h

/-- Witness for claim C3 at a concrete input. -/
theorem claim_C3_witness :
    extract_and_normalize_closing_time (some "8AM".data) = some 480 ∧
      480 ∈ times_found "8AM".data :=
  ⟨by decide, (claim_C3.2.2 "8AM".data 480 (by decide)).1⟩

/-! ### Claim C7: range of the normalized value -/

/-- Counterexample to claim C7 as stated: on the hours string `"10:30 PM"`
the normalizer returns 2520 minutes, which is not a valid minutes-since-
midnight value in 0..1439 (the `H AM/PM` pattern also matches the fragment
`"30 PM"`, converted to 42 hours). -/
theorem claim_C7_counterexample :
    extract_and_normalize_closing_time (some "10:30 PM".data) = some 2520 ∧
      ¬(2520 ≤ 1439) :=
  ⟨by decide, by decide⟩

/-- Claim C7 (amended): any value the time normalizer returns is an integer
at most 6759 (= 111 hours 99 minutes, the extreme of a two-digit hour
matched by a 12-hour pattern plus the PM shift and a two-digit minute);
values above 1439 are reachable because the parsed numerals are never
range-checked. -/
theorem claim_C7 (hs : Option Str) (v : Nat)
    (h : extract_and_normalize_closing_time hs = some v) : v ≤ 6759 := by
  cases hs with
  | none => simp [extract_and_normalize_closing_time] at h
  | some s =>
    rw [extract_and_normalize_closing_time] at h
    split at h
    · exact absurd h (by simp)
    · exact times_found_bound v (listMax_spec h).1

/-- Witness for claim C7 at a concrete input. -/
theorem claim_C7_witness :
    extract_and_normalize_closing_time (some "10:30 PM".data) = some 2520 ∧ 2520 ≤ 6759 :=
  ⟨by decide, claim_C7 (some "10:30 PM".data) 2520 (by decide)⟩

/-! ### Claim C1: the counting resolver and the fallback on a declined count -/

lemma dictGet_ne_none {f : Option (Option Str)} {d : Str} (h : f ≠ some none) :
    ∃ a, dictGet f d = some a := by
  cases f with
  | none => exact ⟨d, rfl⟩
  | some v =>
    cases v with
    | none => exact absurd rfl h
    | some a => exact ⟨a, rfl⟩

lemma countLoop_eq_countP {target : Str} {outlets : List PyOutlet}
    (hwf : ∀ o ∈ outlets, o.address ≠ some none) :
    countLoop target outlets = .ok (outlets.countP (fun o => addrMatches target o)) := by
  induction outlets with
  | nil => simp [countLoop]
  | cons o rest ih =>
    obtain ⟨a, ha⟩ := dictGet_ne_none (hwf o (List.mem_cons_self o rest))
    have ihr := ih (fun x hx => hwf x (List.mem_cons_of_mem o hx))
    have hmatch : addrMatches target o = containsSub (stripSp target) (stripSp (lowerL a)) := by
      unfold addrMatches
      rw [ha]
    simp only [countLoop, ha, List.countP_cons, ihr, hmatch]
    by_cases hc : containsSub (stripSp target) (stripSp (lowerL a)) = true
    · rw [if_pos hc, hc]
      simp [Except.map]
    · rw [if_neg hc]
      simp only [Bool.not_eq_true] at hc
      rw [hc]
      simp

lemma count_answer_ne_nil (n : Nat) (target : Str) :
    ((Nat.repr n).data ++ " outlets in ".data ++ titleL target).isEmpty = false := by
  rw [List.isEmpty_eq_false]
  intro h
  rcases List.append_eq_nil.mp h with ⟨h1, h2⟩
  rcases List.append_eq_nil.mp h1 with ⟨h3, h4⟩
  exact absurd h4 (by decide)

/-- Claim C1: on a counting question (containing `how many` or `count`,
case-insensitively), when a keyword of the counting vocabulary occurs
(case- and space-insensitively) in the question, the orchestrator answers
`"{count} outlets in {Location}"` where `count` is the number of outlets
whose address contains the first-matching keyword; when no keyword occurs
the resolver declines and the orchestrator falls through to the generation
fallback (`handle_llm_processing`). -/
theorem claim_C1 (query : Str) (outlets : List PyOutlet) (llmContent : Option Str)
    (hwf : ∀ o ∈ outlets, o.address ≠ some none)
    (htrig : (containsSub "how many".data (lowerL query)
      || containsSub "count".data (lowerL query)) = true) :
    chat_completion query outlets llmContent =
      .ok (match firstCountLoc (lowerL query) with
          | some target =>
              (Nat.repr (outlets.countP (fun o => addrMatches target o))).data ++
                " outlets in ".data ++ titleL target
          | none => handle_llm_processing llmContent) := by
  unfold chat_completion handle_direct_processing
  rw [if_pos htrig]
  cases hf : firstCountLoc (lowerL query) with
  | some target =>
    simp only [handle_counting_directly, hf, countLoop_eq_countP hwf, Except.map]
    rw [if_neg (by simp [count_answer_ne_nil])]
  | none =>
    simp only [handle_counting_directly, hf]

/-- The three outlets of the specification's counting example. -/
def outA : PyOutlet :=
  { name := some (some "A".data), address := some (some "1 Jalan Bangsar".data) }

/-- Second outlet of the counting example. -/
def outB : PyOutlet :=
  { name := some (some "B".data), address := some (some "2 Jalan Bangsar".data) }

/-- Third outlet of the counting example. -/
def outC : PyOutlet :=
  { name := some (some "C".data), address := some (some "3 KLCC Tower".data) }

/-- Witness for claim C1 at the specification's concrete example. -/
theorem claim_C1_witness :
    chat_completion "how many outlets in Bangsar".data [outA, outB, outC] none =
      .ok (match firstCountLoc (lowerL "how many outlets in Bangsar".data) with
          | some target =>
              (Nat.repr ([outA, outB, outC].countP (fun o => addrMatches target o))).data ++
                " outlets in ".data ++ titleL target
          | none => handle_llm_processing none) :=
  claim_C1 _ _ _ (by decide) (by decide)

/-! ### Claim C6: the generation-fallback answer -/

lemma pyStrip_eq_nil_iff {c : Str} : pyStrip c = [] ↔ c.all wsChar = true := by
  unfold pyStrip
  rw [List.reverse_eq_nil_iff, List.dropWhile_eq_nil_iff, List.all_eq_true]
  constructor
  · intro h x hx
    rcases List.mem_append.mp (by
        rw [List.takeWhile_append_dropWhile (p := wsChar) (l := c)]; exact hx :
        x ∈ c.takeWhile wsChar ++ c.dropWhile wsChar) with hx' | hx'
    · exact List.mem_takeWhile_imp hx'
    · exact h x (List.mem_reverse.mpr hx')
  · intro h x hx
    exact h x ((List.dropWhile_sublist wsChar).mem (List.mem_reverse.mp hx))

/-- Counterexample to claim C6 as stated: when the completion service
returns the all-whitespace content `" "`, the fallback answers with the
empty string — the claim says this can never happen. -/
theorem claim_C6_counterexample :
    handle_llm_processing (some " ".data) = ([] : Str) :=
  by rfl

/-- Claim C6 (amended): the `"No answer generated."` sentinel is returned
exactly for null content; for non-null content the answer is the trimmed
text, which is the empty string precisely when the content is empty or all
whitespace. -/
theorem claim_C6 :
    handle_llm_processing none = "No answer generated.".data ∧
    ∀ content : Option Str, handle_llm_processing content = [] ↔
      ∃ c, content = some c ∧ c.all wsChar = true := by
  refine ⟨rfl, ?_⟩
  intro content
  cases content with
  | none =>
    simp only [handle_llm_processing]
    constructor
    · intro h
      exact absurd h (by decide)
    · rintro ⟨c, hc, -⟩
      exact absurd hc (by simp)
  | some c =>
    simp only [handle_llm_processing]
    constructor
    · intro h
      exact ⟨c, rfl, pyStrip_eq_nil_iff.mp h⟩
    · rintro ⟨c', hc', hall⟩
      injection hc' with h'
      subst h'
      exact pyStrip_eq_nil_iff.mpr hall

/-! ### Claim C8: the two location vocabularies -/

/-- Counterexample to claim C8 as stated: on the address
`"Jalan Persiaran Selangor Heights 123456"` the context compressor finds the
vocabulary keyword `Selangor` (not the 20-character fallback), while no
keyword of the counting resolver's vocabulary occurs in the address, even
case- and space-insensitively — so the two vocabularies are not the same. -/
theorem claim_C8_counterexample :
    extract_location_keywords (some "Jalan Persiaran Selangor Heights 123456".data) =
        "Selangor".data ∧
      "Selangor".data ∈ locations_extract ∧
      locations_counting.all (fun loc =>
        !containsSub (stripSp loc)
          (stripSp (lowerL "Jalan Persiaran Selangor Heights 123456".data))) = true := by
  refine ⟨by rfl, by decide, by decide⟩

/-- Claim C8 (amended): the compressor's vocabulary is **not** the same as
the counting resolver's: every counting keyword except `petaling jaya`
appears (lowercased) in the compressor's vocabulary, but the compressor
additionally recognizes `kl` and `selangor`, which the counting resolver
does not, and the counting keyword `petaling jaya` has no counterpart in
the compressor's vocabulary. -/
theorem claim_C8 :
    (locations_counting.filter (fun loc => loc != "petaling jaya".data)).all
        (fun loc => (locations_extract.map lowerL).contains loc) = true ∧
      (locations_extract.map lowerL).contains "kl".data = true ∧
      locations_counting.contains "kl".data = false ∧
      (locations_extract.map lowerL).contains "selangor".data = true ∧
      locations_counting.contains "selangor".data = false ∧
      locations_counting.contains "petaling jaya".data = true ∧
      (locations_extract.map lowerL).contains "petaling jaya".data = false := by
  refine ⟨by decide, by decide, by decide, by decide, by decide, by decide, by decide⟩

/-! ### Stability of insertion sort with respect to a key-class filter

These lemmas are shared by the latest-closing resolver (descending sort on
normalized times) and the geospatial filter (ascending sort on reported
distances): filtering the sorted list to one key class gives the same list,
in the same order, as filtering the unsorted input. -/

lemma filter_orderedInsert_pos {α : Type} (r : α → α → Prop) [DecidableRel r] (p : α → Bool)
    (a : α) (l : List α) (hpa : p a = true) (h : ∀ b, p b = true → r a b) :
    (List.orderedInsert r a l).filter p = a :: l.filter p := by
  induction l with
  | nil => simp [List.orderedInsert, List.filter_cons, hpa]
  | cons b bs ih =>
    rw [List.orderedInsert]
    by_cases hr : r a b
    · rw [if_pos hr]
      simp [List.filter_cons, hpa]
    · rw [if_neg hr]
      have hpb : p b = false := by
        cases hpb : p b
        · rfl
        · exact absurd (h b hpb) hr
      simp [List.filter_cons, hpb, ih]

lemma filter_orderedInsert_neg {α : Type} (r : α → α → Prop) [DecidableRel r] (p : α → Bool)
    (a : α) (l : List α) (hpa : p a = false) :
    (List.orderedInsert r a l).filter p = l.filter p := by
  induction l with
  | nil => simp [List.orderedInsert, List.filter_cons, hpa]
  | cons b bs ih =>
    rw [List.orderedInsert]
    by_cases hr : r a b
    · rw [if_pos hr]
      simp [List.filter_cons, hpa]
    · rw [if_neg hr]
      simp [List.filter_cons, ih]

lemma filter_insertionSort {α : Type} (r : α → α → Prop) [DecidableRel r] (p : α → Bool)
    (l : List α) (h : ∀ a b, p a = true → p b = true → r a b) :
    (List.insertionSort r l).filter p = l.filter p := by
  induction l with
  | nil => rfl
  | cons a as ih =>
    rw [List.insertionSort]
    cases hpa : p a
    · rw [filter_orderedInsert_neg r p _ _ hpa, ih]
      simp [List.filter_cons, hpa]
    · rw [filter_orderedInsert_pos r p _ _ hpa (fun b hb => h a b hpa hb), ih]
      simp [List.filter_cons, hpa]

/-! ### Claim C2: the latest-closing resolver -/

instance : IsTotal (Option Str × Nat × Option Str) (fun a b => b.2.1 ≤ a.2.1) :=
  ⟨fun a b => Nat.le_total b.2.1 a.2.1⟩

instance : IsTrans (Option Str × Nat × Option Str) (fun a b => b.2.1 ≤ a.2.1) :=
  ⟨fun _ _ _ hab hbc => Nat.le_trans hbc hab⟩

/-- An outlet whose hours string is `"12AM"`: its normalized closing time is
the integer 0, which is extractable but falsy in Python. -/
def outMidnight : PyOutlet :=
  { name := some (some "A".data), operating_hours := some (some "12AM".data) }

/-- Counterexample to claim C2 as stated: the outlet `outMidnight` has an
extractable time (0 minutes, midnight), so by the claim the resolver should
report it as the (only) latest-closing outlet; the code's `if closing_time:`
truthiness test instead discards it and returns the unavailable message. -/
theorem claim_C2_counterexample :
    extract_and_normalize_closing_time (some "12AM".data) = some 0 ∧
      handle_latest_closing_directly [outMidnight] = .ok "Closing times not available".data ∧
      handle_latest_closing_directly [outMidnight] ≠ .ok "A - Closes latest".data := by
  refine ⟨by decide, by rfl, ?_⟩
  intro h
  rw [show handle_latest_closing_directly [outMidnight] =
    Except.ok "Closing times not available".data from rfl] at h
  injection h with h2
  exact absurd h2 (by decide)

/-- Claim C2 (amended): the latest-closing resolver excludes outlets whose
extracted time is absent **or zero** (Python truthiness conflates the two);
over the kept outlets it reports exactly those whose time equals the
maximum, formatted `"{name} - Closes latest"` for a single winner and
`"These outlets close latest: {name1}, {name2}, ..."` in original snapshot
order for ties (where the tie branch's `', '.join` raises if a winner's
name key is bound to null — the equation below carries that error case on
both sides); when no outlet has a nonzero extractable time it returns the
fixed unavailable message as a resolved answer. -/
theorem claim_C2 (outlets : List PyOutlet) :
    (outlet_times outlets = [] →
      handle_latest_closing_directly outlets = .ok "Closing times not available".data)
    ∧ ∀ M : Nat, (∀ x ∈ outlet_times outlets, x.2.1 ≤ M) →
        (∃ x ∈ outlet_times outlets, x.2.1 = M) →
        handle_latest_closing_directly outlets =
          (if (((outlet_times outlets).filter (fun x => x.2.1 == M)).map
                (fun x => x.1)).length = 1 then
            .ok (fstr (((outlet_times outlets).filter (fun x => x.2.1 == M)).map
                (fun x => x.1)).headI ++ " - Closes latest".data)
          else
            match pyJoin ", ".data (((outlet_times outlets).filter (fun x => x.2.1 == M)).map
                (fun x => x.1)) with
            | some s => .ok ("These outlets close latest: ".data ++ s)
            | none => .error ()) := by
  constructor
  · intro h
    simp [handle_latest_closing_directly, h]
  · intro M hub hex
    obtain ⟨x0, hx0mem, hx0⟩ := hex
    have hne : outlet_times outlets ≠ [] := by
      intro h
      rw [h] at hx0mem
      exact absurd hx0mem (List.not_mem_nil x0)
    have hperm := List.perm_insertionSort
      (fun a b : Option Str × Nat × Option Str => b.2.1 ≤ a.2.1) (outlet_times outlets)
    have hsorted := List.sorted_insertionSort
      (fun a b : Option Str × Nat × Option Str => b.2.1 ≤ a.2.1) (outlet_times outlets)
    set sorted := List.insertionSort
      (fun a b : Option Str × Nat × Option Str => b.2.1 ≤ a.2.1) (outlet_times outlets) with hsdef
    obtain ⟨y, ys, hys⟩ : ∃ y ys, sorted = y :: ys := by
      cases hs : sorted with
      | nil =>
        rw [hs] at hperm
        exact absurd hperm.symm.eq_nil hne
      | cons y ys => exact ⟨y, ys, rfl⟩
    have hhead : y.2.1 = M := by
      have hyin : y ∈ outlet_times outlets := hperm.mem_iff.mp (by rw [hys]; exact List.mem_cons_self y ys)
      have hle : y.2.1 ≤ M := hub y hyin
      have hge : M ≤ y.2.1 := by
        have hx0s : x0 ∈ sorted := hperm.mem_iff.mpr hx0mem
        rw [hys] at hx0s
        rcases List.mem_cons.mp hx0s with rfl | hx0t
        · omega
        · have := (List.sorted_cons.mp (by rw [hys] at hsorted; exact hsorted)).1 x0 hx0t
          omega
      omega
    have hfilter : sorted.filter (fun x => x.2.1 == M) =
        (outlet_times outlets).filter (fun x => x.2.1 == M) := by
      apply filter_insertionSort
      intro a b ha hb
      have ha' : a.2.1 = M := by simpa using ha
      have hb' : b.2.1 = M := by simpa using hb
      omega
    rw [handle_latest_closing_directly]
    rw [if_neg (by simp [hne])]
    rw [← hsdef, hys]
    simp only [List.headI]
    rw [show y.2.1 = M from hhead]
    rw [show (y :: ys).filter (fun x => x.2.1 == M) =
        (outlet_times outlets).filter (fun x => x.2.1 == M) from by rw [← hys]; exact hfilter]

/-- First of two outlets tied at 1320 minutes (10 PM). -/
def outT1 : PyOutlet :=
  { name := some (some "A".data), operating_hours := some (some "Mon-Sun: 8AM - 10PM".data) }

/-- Second of two outlets tied at 1320 minutes (10 PM). -/
def outT2 : PyOutlet :=
  { name := some (some "B".data), operating_hours := some (some "9AM - 10PM".data) }

/-! ### Claim C9: malformed outlet records -/

lemma containsSub_nil {pat : Str} (h : pat ≠ []) : containsSub pat [] = false := by
  cases pat with
  | nil => exact absurd rfl h
  | cons c ps => rfl

lemma counting_vocab_nonempty : ∀ loc ∈ locations_counting, stripSp loc ≠ [] := by decide

lemma countLoop_skip {target : Str} (htarget : stripSp target ≠ [])
    (pre post : List PyOutlet) (r : PyOutlet) (hr : r.address = none) :
    countLoop target (pre ++ r :: post) = countLoop target (pre ++ post) := by
  induction pre with
  | nil =>
    simp only [List.nil_append]
    rw [countLoop]
    simp only [hr, dictGet]
    rw [show stripSp (lowerL []) = [] from rfl]
    rw [containsSub_nil htarget]
    simp
  | cons p ps ih =>
    simp only [List.cons_append]
    rw [countLoop, countLoop, ih]

/-- A record whose `address` key is bound to `None`. -/
def outNullAddr : PyOutlet := { name := some (some "X".data), address := some none }

/-- A record with no `address` key at all. -/
def outAbsentAddr : PyOutlet := { name := some (some "X".data) }

/-- Counterexample to claim C9 as stated: on a record whose address field is
`None` (null), the counting resolver raises (`None.lower()`), instead of
skipping the record and completing normally as the claim requires. -/
theorem claim_C9_counterexample :
    handle_counting_directly "how many outlets in bangsar".data [outNullAddr] = .error () ∧
      handle_counting_directly "how many outlets in bangsar".data [] =
        .ok (some "0 outlets in Bangsar".data) :=
  ⟨by rfl, by rfl⟩

/-- Claim C9 (amended): a record whose address **key is missing** is skipped
by the counting resolver (the `dict.get` default makes it an empty address,
which never matches a vocabulary keyword), and a record whose hours key is
missing or bound to null is skipped by the latest-closing resolver; in both
cases the answer equals the one computed over the remaining outlets.  A
record whose address key is bound to **null**, however, makes the counting
resolver raise (see the counterexample). -/
theorem claim_C9 :
    (∀ (ql : Str) (pre post : List PyOutlet) (r : PyOutlet), r.address = none →
      handle_counting_directly ql (pre ++ r :: post) = handle_counting_directly ql (pre ++ post))
    ∧ (∀ (pre post : List PyOutlet) (r : PyOutlet),
        r.operating_hours = none ∨ r.operating_hours = some none →
        handle_latest_closing_directly (pre ++ r :: post) =
          handle_latest_closing_directly (pre ++ post)) := by
  constructor
  · intro ql pre post r hr
    cases hf : firstCountLoc ql with
    | some target =>
      have htarget : stripSp target ≠ [] :=
        counting_vocab_nonempty target (List.mem_of_find?_eq_some hf)
      simp only [handle_counting_directly, hf]
      rw [countLoop_skip htarget pre post r hr]
    | none => simp only [handle_counting_directly, hf]
  · intro pre post r hr
    have hot : outlet_times (pre ++ r :: post) = outlet_times (pre ++ post) := by
      unfold outlet_times
      rw [List.filterMap_append, List.filterMap_append, List.filterMap_cons]
      rcases hr with hr | hr <;>
        simp [extract_and_normalize_closing_time, dictGet, hr]
    unfold handle_latest_closing_directly
    rw [hot]

/-- Witness for claim C9 at a concrete input: a record with no address key
is skipped and the count over the remaining outlets is unchanged. -/
theorem claim_C9_witness :
    handle_counting_directly "how many outlets in bangsar".data ([] ++ outAbsentAddr :: [outA]) =
      handle_counting_directly "how many outlets in bangsar".data ([] ++ [outA]) :=
  claim_C9.1 "how many outlets in bangsar".data [] [outA] outAbsentAddr rfl

/-! ### Claims C4, C5, C10: the geospatial filter -/

lemma atan2_nonneg {y x : ℝ} (hy : 0 ≤ y) : 0 ≤ atan2 y x := by
  unfold atan2
  split_ifs with h1 h2 h3 h4
  · have hdiv : (0 : ℝ) ≤ y / x := div_nonneg hy h1.le
    have hmono := Real.arctan_strictMono.monotone hdiv
    rwa [Real.arctan_zero] at hmono
  · linarith [Real.neg_pi_div_two_lt_arctan (y / x), Real.pi_pos]
  · linarith [Real.pi_pos]
  · linarith
  · exact le_refl 0

lemma haversine_nonneg (lat1 lon1 lat2 lon2 : ℝ) : 0 ≤ haversine lat1 lon1 lat2 lon2 := by
  unfold haversine
  have h := atan2_nonneg (x := Real.sqrt (1 - (Real.sin ((lat2 - lat1) * Real.pi / 180 / 2) ^ 2 +
    Real.cos (lat1 * Real.pi / 180) * Real.cos (lat2 * Real.pi / 180) *
      Real.sin ((lon2 - lon1) * Real.pi / 180 / 2) ^ 2)))
    (Real.sqrt_nonneg (Real.sin ((lat2 - lat1) * Real.pi / 180 / 2) ^ 2 +
      Real.cos (lat1 * Real.pi / 180) * Real.cos (lat2 * Real.pi / 180) *
        Real.sin ((lon2 - lon1) * Real.pi / 180 / 2) ^ 2))
  linarith

instance : IsTotal (PyOutlet × ℝ) (fun x y => x.2 ≤ y.2) :=
  ⟨fun a b => le_total a.2 b.2⟩

instance : IsTrans (PyOutlet × ℝ) (fun x y => x.2 ≤ y.2) :=
  ⟨fun _ _ _ hab hbc => le_trans hab hbc⟩

/-- An outlet record at latitude 200 (out of range) for the C4
counterexample. -/
def outFar : PyOutlet := { latitude := some 200, longitude := some 0 }

/-- Counterexample to claim C4 as stated: a query latitude of 200 (outside
[-90, 90]) does not fail with any error — `get_nearby_outlets` processes it
normally and returns a result list; likewise nothing rejects a non-positive
radius (it merely produces an empty list, see the amended claim). -/
theorem claim_C4_counterexample :
    get_nearby_outlets 200 0 [outFar] 5 = [(outFar, 0)] := by
  have hd : haversine 200 0 200 0 = 0 := by
    unfold haversine atan2
    norm_num [Real.arctan_zero]
  have hr0 : round3 0 = 0 := by
    unfold round3
    norm_num
  unfold get_nearby_outlets nearby_results
  simp only [List.filterMap_cons, List.filterMap_nil, outFar]
  rw [hd]
  rw [if_pos (by norm_num : (0 : ℝ) ≤ 5)]
  rw [hr0]
  simp [List.insertionSort]

/-- Claim C4 (amended): `get_nearby_outlets` performs no parameter
validation at all — there is no `InvalidParameter` outcome in its behavior;
the radius defaults to 5 km when omitted, and a negative radius simply
yields an empty result list (every haversine distance is nonnegative).
Out-of-range coordinates are accepted and processed (see the
counterexample). -/
theorem claim_C4 (lat lon r : ℝ) (outlets : List PyOutlet) (hr : r < 0) :
    get_nearby_outlets lat lon outlets = get_nearby_outlets lat lon outlets 5 ∧
      get_nearby_outlets lat lon outlets r = [] := by
  refine ⟨rfl, ?_⟩
  have hres : nearby_results lat lon r outlets = [] := by
    unfold nearby_results
    rw [List.filterMap_eq_nil_iff]
    intro o ho
    cases hla : o.latitude with
    | none => simp [hla]
    | some la =>
      cases hlo : o.longitude with
      | none => simp [hla, hlo]
      | some ln =>
        simp only [hla, hlo]
        rw [if_neg]
        have := haversine_nonneg lat lon la ln
        linarith
  unfold get_nearby_outlets
  rw [hres]
  rfl

/-- Witness for claim C4 at concrete inputs. -/
theorem claim_C4_witness :
    get_nearby_outlets 0 0 [outFar] = get_nearby_outlets 0 0 [outFar] 5 ∧
      get_nearby_outlets 0 0 [outFar] (-1) = [] :=
  claim_C4 0 0 (-1) [outFar] (by norm_num)

/-- Claim C5: for a positive radius, `get_nearby_outlets` returns a
permutation of the eligible snapshot entries — exactly the outlets with
both coordinates present (missing coordinates are silently excluded, never
an error) whose haversine distance is within the radius, each paired with
its 3-decimal-rounded distance — sorted non-decreasingly by reported
distance. -/
theorem claim_C5 (lat lon r : ℝ) (outlets : List PyOutlet) (hr : 0 < r) :
    List.Perm (get_nearby_outlets lat lon outlets r) (nearby_results lat lon r outlets) ∧
      List.Sorted (fun x y : PyOutlet × ℝ => x.2 ≤ y.2) (get_nearby_outlets lat lon outlets r) ∧
      ∀ (o : PyOutlet) (d : ℝ), (o, d) ∈ get_nearby_outlets lat lon outlets r ↔
        (o ∈ outlets ∧ ∃ la ln, o.latitude = some la ∧ o.longitude = some ln ∧
          haversine lat lon la ln ≤ r ∧ d = round3 (haversine lat lon la ln)) := by
  refine ⟨List.perm_insertionSort _ _, List.sorted_insertionSort _ _, ?_⟩
  intro o d
  unfold get_nearby_outlets
  rw [(List.perm_insertionSort (fun x y : PyOutlet × ℝ => x.2 ≤ y.2)
    (nearby_results lat lon r outlets)).mem_iff]
  unfold nearby_results
  rw [List.mem_filterMap]
  constructor
  · rintro ⟨a, ha, hfa⟩
    cases hla : a.latitude with
    | none => rw [hla] at hfa; simp at hfa
    | some la =>
      cases hlo : a.longitude with
      | none => rw [hla, hlo] at hfa; simp at hfa
      | some ln =>
        rw [hla, hlo] at hfa
        simp only at hfa
        split at hfa
        · rename_i hle
          injection hfa with h1
          injection h1 with h2 h3
          subst h2
          exact ⟨ha, la, ln, hla, hlo, hle, h3.symm⟩
        · exact absurd hfa (by simp)
  · rintro ⟨ho, la, ln, hla, hlo, hle, rfl⟩
    refine ⟨o, ho, ?_⟩
    rw [hla, hlo]
    simp only
    rw [if_pos hle]

/-- An outlet at the origin for the C5 witness. -/
def outOrigin : PyOutlet := { latitude := some 0, longitude := some 0 }

/-- Witness for claim C5 at concrete inputs. -/
theorem claim_C5_witness :
    List.Sorted (fun x y : PyOutlet × ℝ => x.2 ≤ y.2) (get_nearby_outlets 0 0 [outOrigin] 1) :=
  (claim_C5 0 0 1 [outOrigin] (by norm_num)).2.1

/-- Claim C10: the result of `get_nearby_outlets` is ordered by the reported
(3-decimal-rounded) `distance_km` values — the sequence of reported values
is non-decreasing — and entries whose reported values are equal (even when
their raw haversine distances differ) appear in their original snapshot
order: filtering the result to any one reported value gives exactly the
same list, in the same order, as filtering the unsorted snapshot scan. -/
theorem claim_C10 (lat lon r : ℝ) (outlets : List PyOutlet) :
    List.Sorted (fun x y : ℝ => x ≤ y)
        ((get_nearby_outlets lat lon outlets r).map (fun e => e.2)) ∧
      ∀ c : ℝ, (get_nearby_outlets lat lon outlets r).filter (fun e => decide (e.2 = c)) =
        (nearby_results lat lon r outlets).filter (fun e => decide (e.2 = c)) := by
  constructor
  · have hs := List.sorted_insertionSort (fun x y : PyOutlet × ℝ => x.2 ≤ y.2)
      (nearby_results lat lon r outlets)
    unfold get_nearby_outlets
    exact List.pairwise_map.mpr hs
  · intro c
    unfold get_nearby_outlets
    apply filter_insertionSort
    intro a b ha hb
    have ha' : a.2 = c := of_decide_eq_true ha
    have hb' : b.2 = c := of_decide_eq_true hb
    rw [ha', hb']

/-- Witness for claim C2 on a concrete tie at 1320 minutes. -/
theorem claim_C2_witness :
    handle_latest_closing_directly [outT1, outT2] =
      (if (((outlet_times [outT1, outT2]).filter (fun x => x.2.1 == 1320)).map
            (fun x => x.1)).length = 1 then
        .ok (fstr (((outlet_times [outT1, outT2]).filter (fun x => x.2.1 == 1320)).map
            (fun x => x.1)).headI ++ " - Closes latest".data)
      else
        match pyJoin ", ".data (((outlet_times [outT1, outT2]).filter
            (fun x => x.2.1 == 1320)).map (fun x => x.1)) with
        | some s => .ok ("These outlets close latest: ".data ++ s)
        | none => .error ()) :=
  (claim_C2 [outT1, outT2]).2 1320 (by decide) (by decide)

end Subway
